import Mathlib

/-!
# The `apm` command line client (`lib/cli/cli.go`)

A shallow embedding of the Go package `cli` of `gostones/apm`.

`cli.go` is a thin client: every method of `Cli` talks to a
`master.RemoteClient`, writes log lines through logrus and draws tables with
`tablewriter`.  None of these collaborators lives in `cli.go`, so the embedding
treats them as follows.

* The remote client is a record of state transformers over an arbitrary remote
  state `σ` (`RemoteClient σ ν`).  A theorem quantified over `σ`, the record and
  the starting state speaks about every behaviour of the remote side.
* Every observable action (a remote call, a log line, a table operation, the
  dial performed by `InitCli`) is appended to a trace, in program order.
* `log.Fatalf` ends the program (logrus calls `os.Exit(1)`), which is the
  `Outcome.fatal` result: nothing after it runs.
-/

namespace Apm

/-! ## Values that cross the boundary of `cli.go` -/

/-- A non-nil Go `error`; `Option GoError` is the Go type `error`, `none` being `nil`. -/
structure GoError where
  msg : String
deriving DecidableEq, Repr

/-- Go `time.Duration`, a count of nanoseconds. -/
abbrev Duration := Int

/-- Go `map[string]string` as returned through `*map[string]string` by
`GetProcByName`: the entries, listed in the order in which `range` visits them.
Go leaves that order to the runtime, so the list order is part of the
behaviour of the environment. -/
abbrev StrMap := List (String × String)

/-- Resource usage of a process, `proc.Status.Sys` in `cli.go`; `ν` is the
numeric type of the two readings, which `cli.go` converts with `int(...)`. -/
structure SysInfo (ν : Type) where
  CPU : ν
  Memory : ν
deriving DecidableEq, Repr

/-- The value read as `proc.Status` in `cli.go`. -/
structure ProcStatus (ν : Type) where
  Status : String
  Uptime : String
  Restarts : Int
  Sys : SysInfo ν
deriving DecidableEq, Repr

/-- One element of `procResponse.Procs`. -/
structure Proc (ν : Type) where
  Name : String
  Pid : Int
  Status : ProcStatus ν
deriving DecidableEq, Repr

/-- The first result of `RemoteClient.MonitStatus`. -/
structure ProcResponse (ν : Type) where
  Procs : List (Proc ν)
deriving DecidableEq, Repr

/-! ## Observable actions -/

/-- A request sent through `cli.remoteClient`. -/
inductive RemoteCall where
  | Save
  | StartGoBin (sourcePath : String) (name : String) (keepAlive : Bool) (args : List String)
  | RestartProcess (procName : String)
  | StartProcess (procName : String)
  | StopProcess (procName : String)
  | DeleteProcess (procName : String)
  | GetProcByName (procName : String)
  | MonitStatus
deriving DecidableEq, Repr

/-- The calls that change the state of the supervisor. -/
def RemoteCall.stateChanging : RemoteCall → Bool
  | .GetProcByName _ => false
  | .MonitStatus => false
  | _ => true

/-- Logrus severity. -/
inductive Level where
  | debug | info | warn | error | fatal
deriving DecidableEq, Repr

/-- An argument handed to a logrus formatting call. -/
inductive LogArg where
  | str (s : String)
  | bool (b : Bool)
  | strs (l : List String)
  | err (e : GoError)
deriving DecidableEq, Repr

/-- The colour helpers of `fatih/color` used by `cli.go`. -/
inductive Color where
  | green | red | cyan
deriving DecidableEq, Repr

/-- One string of a table row, together with the colour helper that produced
it (`none` for a string used as it is). -/
structure Cell where
  color : Option Color
  text : String
deriving DecidableEq, Repr

/-- A cell holding an uncoloured string. -/
def Cell.plain (s : String) : Cell := ⟨none, s⟩

/-- Go `color.GreenString(s)`, called with no formatting arguments. -/
def color.GreenString (s : String) : Cell := ⟨some Color.green, s⟩

/-- Go `color.RedString(s)`, called with no formatting arguments. -/
def color.RedString (s : String) : Cell := ⟨some Color.red, s⟩

/-- Go `color.CyanString(s)`, called with no formatting arguments. -/
def color.CyanString (s : String) : Cell := ⟨some Color.cyan, s⟩

/-- The two `tablewriter` alignments used by `cli.go`. -/
inductive Alignment where
  | ALIGN_CENTER | ALIGN_LEFT
deriving DecidableEq, Repr

/-- An operation on the table writer. -/
inductive TableOp where
  | GetTableWriter
  | SetAlignment (a : Alignment)
  | SetAutoWrapText (b : Bool)
  | SetHeader (cols : List String)
  | Append (row : List Cell)
  | SetRowLine (b : Bool)
  | Render
deriving DecidableEq, Repr

/-- Everything `cli.go` does that can be seen from outside, one entry per action. -/
inductive Event where
  | dial (dsn : String) (timeout : Duration)
  | remote (c : RemoteCall)
  | log (lvl : Level) (format : String) (args : List LogArg)
  | table (op : TableOp)
deriving DecidableEq, Repr

/-- The remote calls of a trace, in order. -/
def remoteCalls (t : List Event) : List RemoteCall :=
  t.filterMap fun e => match e with
    | .remote c => some c
    | _ => none

/-- The rows appended to the table in a trace, in order. -/
def appendedRows (t : List Event) : List (List Cell) :=
  t.filterMap fun e => match e with
    | .table (.Append row) => some row
    | _ => none

/-- The log lines of a trace, in order. -/
def logLines (t : List Event) : List (Level × String × List LogArg) :=
  t.filterMap fun e => match e with
    | .log lvl f a => some (lvl, f, a)
    | _ => none

/-- The dials of a trace, in order. -/
def dials (t : List Event) : List (String × Duration) :=
  t.filterMap fun e => match e with
    | .dial d n => some (d, n)
    | _ => none

/-! ## The environment -/

/-- The methods of `master.RemoteClient` that `cli.go` calls.  Each one reads
and updates the state `σ` of the remote side and yields the Go results. -/
structure RemoteClient (σ ν : Type) where
  Save : σ → Option GoError × σ
  StartGoBin : String → String → Bool → List String → σ → Option GoError × σ
  RestartProcess : String → σ → Option GoError × σ
  StartProcess : String → σ → Option GoError × σ
  StopProcess : String → σ → Option GoError × σ
  DeleteProcess : String → σ → Option GoError × σ
  GetProcByName : String → σ → StrMap × σ
  MonitStatus : σ → (ProcResponse ν × Option GoError) × σ

/-- The functions `cli.go` uses whose bodies are outside `cli.go`: the Go
conversion `int(x)` on the numeric type of the resource readings and
`utils.FormatMemory`. -/
structure Externals (ν : Type) where
  toInt : ν → Int
  FormatMemory : Int → String

/-- The state of the world: the remote side and what has been observed so far. -/
structure World (σ : Type) where
  remote : σ
  trace : List Event

/-- How a call ends: it returns a value, or the process was terminated by `log.Fatalf`. -/
inductive Outcome (α : Type) where
  | returned (a : α)
  | fatal
deriving DecidableEq, Repr

/-- A Go statement sequence acting on the world. -/
def Prog (σ α : Type) : Type := World σ → Outcome α × World σ

/-- A statement sequence that does nothing and yields `a`. -/
def Prog.pure {σ α : Type} (a : α) : Prog σ α := fun w => (Outcome.returned a, w)

/-- Sequencing: the rest runs only when the first part returned. -/
def Prog.bind {σ α β : Type} (m : Prog σ α) (f : α → Prog σ β) : Prog σ β := fun w =>
  match m w with
  | (Outcome.returned a, w1) => f a w1
  | (Outcome.fatal, w1) => (Outcome.fatal, w1)

instance (σ : Type) : Monad (Prog σ) where
  pure := Prog.pure
  bind := Prog.bind

/-- Append one event to the trace. -/
def emit {σ : Type} (e : Event) : Prog σ Unit := fun w =>
  (Outcome.returned (), { w with trace := w.trace ++ [e] })

/-- Send a request to the remote client: the request is recorded, then the
remote side answers and moves to its next state. -/
def call {σ α : Type} (c : RemoteCall) (f : σ → α × σ) : Prog σ α := fun w =>
  let r := f w.remote
  (Outcome.returned r.1, { remote := r.2, trace := w.trace ++ [Event.remote c] })

/-- Go `log.Debugf`. -/
def log.Debugf {σ : Type} (format : String) (args : List LogArg) : Prog σ Unit :=
  emit (Event.log Level.debug format args)

/-- Go `log.Infof`. -/
def log.Infof {σ : Type} (format : String) (args : List LogArg) : Prog σ Unit :=
  emit (Event.log Level.info format args)

/-- Go `log.Warnf` (and `log.Warn` when `args` is empty). -/
def log.Warnf {σ : Type} (format : String) (args : List LogArg) : Prog σ Unit :=
  emit (Event.log Level.warn format args)

/-- Go `log.Errorf`. -/
def log.Errorf {σ : Type} (format : String) (args : List LogArg) : Prog σ Unit :=
  emit (Event.log Level.error format args)

/-- Go `log.Fatalf`: the line is written and the process exits. -/
def log.Fatalf {σ α : Type} (format : String) (args : List LogArg) : Prog σ α := fun w =>
  (Outcome.fatal, { w with trace := w.trace ++ [Event.log Level.fatal format args] })

/-- Go `for id := range xs { body(xs[id]) }` over a slice. -/
def forRange {σ α : Type} : List α → (α → Prog σ Unit) → Prog σ Unit
  | [], _ => Prog.pure ()
  | x :: xs, body => Prog.bind (body x) fun _ => forRange xs body

/-! ## Decimal rendering (`strconv.Itoa`, `fmt.Sprintf("%d", ·)`) -/

/-- The decimal digits of `n`, most significant first, computed with at most
`fuel` divisions by ten. -/
def decDigitsAux : Nat → Nat → List Nat
  | 0, n => [n % 10]
  | fuel + 1, n => if n < 10 then [n] else decDigitsAux fuel (n / 10) ++ [n % 10]

/-- The decimal digits of a natural number, most significant first. -/
def decDigits (n : Nat) : List Nat := decDigitsAux n n

/-- The character of a digit. -/
def digitChar (d : Nat) : Char := Char.ofNat (48 + d)

/-- Go `strconv.Itoa`: an optional minus sign followed by the decimal digits. -/
def strconv.Itoa (n : Int) : String :=
  match n with
  | Int.ofNat m => String.mk ((decDigits m).map digitChar)
  | Int.negSucc m => String.mk ('-' :: (decDigits (m + 1)).map digitChar)

/-- Go `fmt.Sprintf("%d", n)` for an integer `n`. -/
def fmt.Sprintf_d (n : Int) : String := strconv.Itoa n

/-- One step of reading a decimal numeral: the value so far and the next character. -/
def readStep (acc : Option Nat) (c : Char) : Option Nat :=
  match acc with
  | none => none
  | some a => if 48 ≤ c.toNat ∧ c.toNat ≤ 57 then some (10 * a + (c.toNat - 48)) else none

/-- The number a string of decimal digits stands for, `none` when some
character is not a digit or there is no digit. -/
def readDigits (cs : List Char) : Option Nat :=
  if cs.isEmpty then none else cs.foldl readStep (some 0)

/-- The integer a decimal numeral stands for. -/
def readDecimal (s : String) : Option Int :=
  match s.data with
  | [] => none
  | c :: cs =>
    if c = '-' then Option.map (fun n : Nat => - (n : Int)) (readDigits cs)
    else Option.map (fun n : Nat => (n : Int)) (readDigits (c :: cs))

/-! ## `cli.go` -/

/-- Go `type Cli struct { remoteClient *master.RemoteClient }`. -/
structure Cli (σ ν : Type) where
  remoteClient : RemoteClient σ ν

/-- Go `master.StartRemoteClient(dsn, timeout)`, whose body is outside `cli.go`:
the dial is recorded, then the environment `start` answers a client and an error. -/
def master.StartRemoteClient {σ ν : Type}
    (start : String → Duration → σ → (RemoteClient σ ν × Option GoError) × σ)
    (dsn : String) (timeout : Duration) : Prog σ (RemoteClient σ ν × Option GoError) := fun w =>
  let r := start dsn timeout w.remote
  (Outcome.returned r.1, { remote := r.2, trace := w.trace ++ [Event.dial dsn timeout] })

/-- Go `InitCli`. -/
def InitCli {σ ν : Type}
    (start : String → Duration → σ → (RemoteClient σ ν × Option GoError) × σ)
    (dsn : String) (timeout : Duration) : Prog σ (Cli σ ν) := do
  let (client, err) ← master.StartRemoteClient start dsn timeout
  match err with
  | some e => log.Fatalf "Failed to start remote client due to: %+v" [LogArg.err e]
  | none => pure { remoteClient := client }

/-- Go `(*Cli).Save`. -/
def Cli.Save {σ ν : Type} (cli : Cli σ ν) : Prog σ Unit := do
  let err ← call RemoteCall.Save cli.remoteClient.Save
  match err with
  | some e => log.Fatalf "Failed to save list of processes due to: %+v" [LogArg.err e]
  | none => pure ()

/-- Go `(*Cli).StartGoBin`. -/
def Cli.StartGoBin {σ ν : Type} (cli : Cli σ ν) (sourcePath : String) (name : String)
    (keepAlive : Bool) (args : List String) : Prog σ Unit := do
  log.Debugf "StartGoBin: %+v %v %v %v ..."
    [LogArg.str sourcePath, LogArg.str name, LogArg.bool keepAlive, LogArg.strs args]
  let err ← call (RemoteCall.StartGoBin sourcePath name keepAlive args)
    (cli.remoteClient.StartGoBin sourcePath name keepAlive args)
  match err with
  | some e => log.Fatalf "Failed to start go bin, error: %+v" [LogArg.err e]
  | none => pure ()

/-- Go `(*Cli).RestartProcess`. -/
def Cli.RestartProcess {σ ν : Type} (cli : Cli σ ν) (procName : String) : Prog σ Unit := do
  let isExist ← call (RemoteCall.GetProcByName procName) (cli.remoteClient.GetProcByName procName)
  if isExist.length = 0 then
    log.Errorf "process %s not found" [LogArg.str procName]
  else
    let err ← call (RemoteCall.RestartProcess procName) (cli.remoteClient.RestartProcess procName)
    match err with
    | some e => log.Fatalf "Failed to restart process due to: %+v" [LogArg.err e]
    | none => pure ()

/-- Go `(*Cli).StartProcess`. -/
def Cli.StartProcess {σ ν : Type} (cli : Cli σ ν) (procName : String) : Prog σ Unit := do
  let err ← call (RemoteCall.StartProcess procName) (cli.remoteClient.StartProcess procName)
  match err with
  | some e => log.Errorf "Failed to start process due to: %+v" [LogArg.err e]
  | none => pure ()

/-- Go `(*Cli).StopProcess`. -/
def Cli.StopProcess {σ ν : Type} (cli : Cli σ ν) (procName : String) : Prog σ Unit := do
  let isExist ← call (RemoteCall.GetProcByName procName) (cli.remoteClient.GetProcByName procName)
  if isExist.length = 0 then
    log.Warnf "process %s not found" [LogArg.str procName]
  else
    let err ← call (RemoteCall.StopProcess procName) (cli.remoteClient.StopProcess procName)
    match err with
    | some e => log.Fatalf "Failed to stop process due to: %+v" [LogArg.err e]
    | none => pure ()

/-- Go `(*Cli).DeleteProcess`. -/
def Cli.DeleteProcess {σ ν : Type} (cli : Cli σ ν) (procName : String) : Prog σ Unit := do
  let isExist ← call (RemoteCall.GetProcByName procName) (cli.remoteClient.GetProcByName procName)
  if isExist.length = 0 then
    log.Errorf "process %s not found" [LogArg.str procName]
  else
    let err ← call (RemoteCall.DeleteProcess procName) (cli.remoteClient.DeleteProcess procName)
    match err with
    | some e => log.Fatalf "Failed to delete process due to: %+v" [LogArg.err e]
    | none => pure ()

/-- The header set by `Status`. -/
def statusHeader : List String :=
  ["name", "pid", "status", "uptime", "restart", "CPU·%", "memory"]

/-- The `status` variable of the loop body of `Status`: green first, replaced
by red when the status differs from `"running"`. -/
def statusCell (s : String) : Cell :=
  let status := color.GreenString s
  if s ≠ "running" then color.RedString s else status

/-- The row `Status` appends for one process. -/
def statusRow {ν : Type} (x : Externals ν) (proc : Proc ν) : List Cell :=
  [ color.CyanString proc.Name, Cell.plain (fmt.Sprintf_d proc.Pid), statusCell proc.Status.Status,
    Cell.plain proc.Status.Uptime, Cell.plain (strconv.Itoa proc.Status.Restarts),
    Cell.plain (strconv.Itoa (x.toInt proc.Status.Sys.CPU)),
    Cell.plain (x.FormatMemory (x.toInt proc.Status.Sys.Memory)) ]

/-- Go `(*Cli).Status`. -/
def Cli.Status {σ ν : Type} (x : Externals ν) (cli : Cli σ ν) : Prog σ Unit := do
  let (procResponse, err) ← call RemoteCall.MonitStatus cli.remoteClient.MonitStatus
  match err with
  | some e => log.Fatalf "Failed to get status due to: %+v" [LogArg.err e]
  | none =>
    emit (Event.table TableOp.GetTableWriter)
    emit (Event.table (TableOp.SetAlignment Alignment.ALIGN_CENTER))
    emit (Event.table (TableOp.SetHeader statusHeader))
    forRange procResponse.Procs fun proc =>
      emit (Event.table (TableOp.Append (statusRow x proc)))
    emit (Event.table (TableOp.SetRowLine true))
    emit (Event.table TableOp.Render)

/-- The row `ProcInfo` appends for one map entry. -/
def infoRow (kv : String × String) : List Cell :=
  [color.GreenString kv.1, Cell.plain kv.2]

/-- Go `(*Cli).ProcInfo`. -/
def Cli.ProcInfo {σ ν : Type} (cli : Cli σ ν) (procName : String) : Prog σ Unit := do
  let procDetail ← call (RemoteCall.GetProcByName procName)
    (cli.remoteClient.GetProcByName procName)
  if procDetail.length = 0 then
    log.Errorf "process %s not found" [LogArg.str procName]
  else
    emit (Event.table TableOp.GetTableWriter)
    emit (Event.table (TableOp.SetAutoWrapText true))
    emit (Event.table (TableOp.SetAlignment Alignment.ALIGN_LEFT))
    forRange procDetail fun kv =>
      emit (Event.table (TableOp.Append (infoRow kv)))
    emit (Event.table TableOp.Render)

/-- Go `(*Cli).DeleteAllProcess`.  The result of the remote `DeleteProcess`
is not bound to anything in the source. -/
def Cli.DeleteAllProcess {σ ν : Type} (cli : Cli σ ν) : Prog σ Unit := do
  let (procResponse, err) ← call RemoteCall.MonitStatus cli.remoteClient.MonitStatus
  match err with
  | some e => log.Fatalf "Failed to get status due to: %+v" [LogArg.err e]
  | none =>
    if procResponse.Procs.length = 0 then
      log.Warnf "All processes have been stopped and deleted" []
    else
      forRange procResponse.Procs fun proc => do
        let _ ← call (RemoteCall.DeleteProcess proc.Name) (cli.remoteClient.DeleteProcess proc.Name)
        log.Infof "proc: %s has quit" [LogArg.str proc.Name]

/-! ## Traces of the loops -/

/-- The events of the loop of `DeleteAllProcess`. -/
def deleteAllEvents {ν : Type} (ps : List (Proc ν)) : List Event :=
  ps.flatMap fun p =>
    [Event.remote (RemoteCall.DeleteProcess p.Name),
     Event.log Level.info "proc: %s has quit" [LogArg.str p.Name]]

/-- The state of the remote side after the loop of `DeleteAllProcess` started
in state `s`: the `DeleteProcess` request of each listed process applied in turn. -/
def deleteAllRemote {σ ν : Type} (cli : Cli σ ν) (ps : List (Proc ν)) (s : σ) : σ :=
  ps.foldl (fun s p => (cli.remoteClient.DeleteProcess p.Name s).2) s

/-- The table operations of a `Status` call whose `MonitStatus` succeeded. -/
def statusEvents {ν : Type} (x : Externals ν) (ps : List (Proc ν)) : List Event :=
  [Event.table TableOp.GetTableWriter,
   Event.table (TableOp.SetAlignment Alignment.ALIGN_CENTER),
   Event.table (TableOp.SetHeader statusHeader)]
  ++ ps.map (fun p => Event.table (TableOp.Append (statusRow x p)))
  ++ [Event.table (TableOp.SetRowLine true), Event.table TableOp.Render]

/-- The table operations of a `ProcInfo` call on a non-empty map. -/
def procInfoEvents (m : StrMap) : List Event :=
  [Event.table TableOp.GetTableWriter,
   Event.table (TableOp.SetAutoWrapText true),
   Event.table (TableOp.SetAlignment Alignment.ALIGN_LEFT)]
  ++ m.map (fun kv => Event.table (TableOp.Append (infoRow kv)))
  ++ [Event.table TableOp.Render]

/-! ## Concrete environments -/

/-- A remote side that follows a fixed script, used for concrete runs:
`MonitStatus` answers `procs` and `monitErr`, `GetProcByName` answers `detail`
for every name, and every other request answers `opErr`. -/
def scriptedClient (procs : List (Proc Nat)) (monitErr opErr : Option GoError)
    (detail : StrMap) : RemoteClient Unit Nat where
  Save := fun s => (opErr, s)
  StartGoBin := fun _ _ _ _ s => (opErr, s)
  RestartProcess := fun _ s => (opErr, s)
  StartProcess := fun _ s => (opErr, s)
  StopProcess := fun _ s => (opErr, s)
  DeleteProcess := fun _ s => (opErr, s)
  GetProcByName := fun _ s => (detail, s)
  MonitStatus := fun s => (({ Procs := procs }, monitErr), s)

/-- A remote side that keeps the list of registered names, used for concrete
runs: lifecycle requests answer an error for an unknown name, `DeleteProcess`
removes the name, `StartGoBin` registers it, and the two queries only read. -/
def registryClient : RemoteClient (List String) Nat where
  Save := fun s => (none, s)
  StartGoBin := fun _ name _ _ s => (none, if name ∈ s then s else s ++ [name])
  RestartProcess := fun n s => (if n ∈ s then none else some ⟨"not found"⟩, s)
  StartProcess := fun n s => (if n ∈ s then none else some ⟨"not found"⟩, s)
  StopProcess := fun n s => (if n ∈ s then none else some ⟨"not found"⟩, s)
  DeleteProcess := fun n s => (if n ∈ s then none else some ⟨"not found"⟩, s.erase n)
  GetProcByName := fun n s => (if n ∈ s then [("name", n)] else [], s)
  MonitStatus := fun s => (({ Procs := s.map fun n =>
    { Name := n, Pid := 1,
      Status := { Status := "running", Uptime := "1m", Restarts := 0,
                  Sys := { CPU := 0, Memory := 0 } } } }, none), s)

/-- A `master.StartRemoteClient` that answers `err` and hands out a scripted client. -/
def scriptedStart (err : Option GoError) :
    String → Duration → Unit → (RemoteClient Unit Nat × Option GoError) × Unit :=
  fun _ _ s => ((scriptedClient [] none none [], err), s)

/-- A process record for concrete runs. -/
def sampleProc (name : String) (pid : Int) (status : String) : Proc Nat :=
  { Name := name, Pid := pid,
    Status := { Status := status, Uptime := "1m", Restarts := 2, Sys := { CPU := 3, Memory := 4096 } } }

/-- Externals for concrete runs: readings are natural numbers and memory is
shown as a number of bytes. -/
def sampleExternals : Externals Nat where
  toInt := fun n => (n : Int)
  FormatMemory := fun n => strconv.Itoa n ++ " B"

/-- The world before anything happened. -/
def emptyWorld : World Unit := { remote := (), trace := [] }

/-! ## Running the statements -/

section Run

variable {σ ν α β : Type}

theorem bind_run (m : Prog σ α) (f : α → Prog σ β) (w : World σ) :
    (m >>= f) w = Prog.bind m f w := rfl

theorem pure_run (a : α) (w : World σ) :
    (pure a : Prog σ α) w = (Outcome.returned a, w) := rfl

/-- Running a remote call followed by the rest of the statements. -/
theorem call_bind_run (c : RemoteCall) (g : σ → α × σ) (f : α → Prog σ β) (w : World σ) :
    (call c g >>= f) w
      = f (g w.remote).1 { remote := (g w.remote).2, trace := w.trace ++ [Event.remote c] } := rfl

/-- Running an emitted event followed by the rest of the statements. -/
theorem emit_bind_run (e : Event) (f : Unit → Prog σ β) (w : World σ) :
    (emit e >>= f) w = f () { w with trace := w.trace ++ [e] } := rfl

/-- Running a conditional is running the chosen branch. -/
theorem ite_run (c : Prop) [Decidable c] (m n : Prog σ α) (w : World σ) :
    (if c then m else n) w = if c then m w else n w := by
  split <;> rfl

theorem remoteCalls_append (s t : List Event) :
    remoteCalls (s ++ t) = remoteCalls s ++ remoteCalls t := by
  simp [remoteCalls, List.filterMap_append]

theorem appendedRows_append (s t : List Event) :
    appendedRows (s ++ t) = appendedRows s ++ appendedRows t := by
  simp [appendedRows, List.filterMap_append]

theorem logLines_append (s t : List Event) :
    logLines (s ++ t) = logLines s ++ logLines t := by
  simp [logLines, List.filterMap_append]

theorem dials_append (s t : List Event) :
    dials (s ++ t) = dials s ++ dials t := by
  simp [dials, List.filterMap_append]

/-- A loop whose body only emits one event per element emits them in order and returns. -/
theorem forRange_emit (xs : List α) (f : α → Event) (w : World σ) :
    forRange xs (fun a => emit (f a)) w
      = (Outcome.returned (), { w with trace := w.trace ++ xs.map f }) := by
  induction xs generalizing w with
  | nil => simp [forRange, Prog.pure]
  | cons x xs ih => simp [forRange, Prog.bind, emit, ih]

/-- A loop whose body always returns and extends the trace by `g x` returns and
extends the trace by the concatenation of the `g x`. -/
theorem forRange_trace (xs : List α) (body : α → Prog σ Unit) (g : α → List Event)
    (h : ∀ x w, (body x w).1 = Outcome.returned () ∧ (body x w).2.trace = w.trace ++ g x)
    (w : World σ) :
    (forRange xs body w).1 = Outcome.returned () ∧
    (forRange xs body w).2.trace = w.trace ++ xs.flatMap g := by
  induction xs generalizing w with
  | nil => simp [forRange, Prog.pure]
  | cons x xs ih =>
    obtain ⟨h1, h2⟩ := h x w
    rcases hb : body x w with ⟨o, w1⟩
    rw [hb] at h1 h2
    simp only at h1 h2
    subst h1
    simp only [forRange, Prog.bind, hb]
    refine ⟨(ih w1).1, ?_⟩
    rw [(ih w1).2, h2]
    simp

/-- The loop of `DeleteAllProcess` returns, whatever the remote side answers,
and leaves one delete request and one info line per process. -/
theorem forRange_delete (cli : Cli σ ν) (ps : List (Proc ν)) (w : World σ) :
    (forRange ps (fun proc => do
        let _ ← call (RemoteCall.DeleteProcess proc.Name)
          (cli.remoteClient.DeleteProcess proc.Name)
        log.Infof "proc: %s has quit" [LogArg.str proc.Name]) w).1 = Outcome.returned () ∧
    (forRange ps (fun proc => do
        let _ ← call (RemoteCall.DeleteProcess proc.Name)
          (cli.remoteClient.DeleteProcess proc.Name)
        log.Infof "proc: %s has quit" [LogArg.str proc.Name]) w).2.trace
      = w.trace ++ deleteAllEvents ps := by
  apply forRange_trace
  intro p w1
  constructor
  · rfl
  · show _ = _ ++ [_, _]
    simp [bind_run, Prog.bind, call, log.Infof, emit]

/-- The loop of `DeleteAllProcess` sends each delete request to the remote side,
one after the other. -/
theorem forRange_delete_remote (cli : Cli σ ν) (ps : List (Proc ν)) (w : World σ) :
    (forRange ps (fun proc => do
        let _ ← call (RemoteCall.DeleteProcess proc.Name)
          (cli.remoteClient.DeleteProcess proc.Name)
        log.Infof "proc: %s has quit" [LogArg.str proc.Name]) w).2.remote
      = deleteAllRemote cli ps w.remote := by
  induction ps generalizing w with
  | nil => rfl
  | cons p ps ih =>
    simp only [forRange, deleteAllRemote, List.foldl_cons]
    exact ih _

theorem remoteCalls_deleteAllEvents (ps : List (Proc ν)) :
    remoteCalls (deleteAllEvents ps) = ps.map fun p => RemoteCall.DeleteProcess p.Name := by
  induction ps with
  | nil => simp [deleteAllEvents, remoteCalls]
  | cons p ps ih =>
    simp only [deleteAllEvents, List.flatMap_cons, remoteCalls_append, List.map_cons] at ih ⊢
    rw [ih]
    simp [remoteCalls]

theorem logLines_deleteAllEvents (ps : List (Proc ν)) :
    logLines (deleteAllEvents ps)
      = ps.map fun p => (Level.info, "proc: %s has quit", [LogArg.str p.Name]) := by
  induction ps with
  | nil => simp [deleteAllEvents, logLines]
  | cons p ps ih =>
    simp only [deleteAllEvents, List.flatMap_cons, logLines_append, List.map_cons] at ih ⊢
    rw [ih]
    simp [logLines]

theorem remoteCalls_statusEvents (x : Externals ν) (ps : List (Proc ν)) :
    remoteCalls (statusEvents x ps) = [] := by
  simp [statusEvents, remoteCalls, List.filterMap_append]

theorem appendedRows_statusEvents (x : Externals ν) (ps : List (Proc ν)) :
    appendedRows (statusEvents x ps) = ps.map (statusRow x) := by
  simp [statusEvents, appendedRows, List.filterMap_append, List.filterMap_map]
  induction ps with
  | nil => rfl
  | cons p ps ih => simp [List.filterMap_cons, ih]

theorem remoteCalls_procInfoEvents (m : StrMap) : remoteCalls (procInfoEvents m) = [] := by
  simp [procInfoEvents, remoteCalls, List.filterMap_append]

theorem appendedRows_procInfoEvents (m : StrMap) :
    appendedRows (procInfoEvents m) = m.map infoRow := by
  simp [procInfoEvents, appendedRows, List.filterMap_append, List.filterMap_map]
  induction m with
  | nil => rfl
  | cons p ps ih => simp [List.filterMap_cons, ih]

/-- What `Status` does, in full. -/
theorem Status_run (x : Externals ν) (cli : Cli σ ν) (w : World σ) :
    cli.Status x w =
      match (cli.remoteClient.MonitStatus w.remote).1.2 with
      | some e => (Outcome.fatal,
          { remote := (cli.remoteClient.MonitStatus w.remote).2,
            trace := w.trace ++ [Event.remote RemoteCall.MonitStatus,
              Event.log Level.fatal "Failed to get status due to: %+v" [LogArg.err e]] })
      | none => (Outcome.returned (),
          { remote := (cli.remoteClient.MonitStatus w.remote).2,
            trace := w.trace ++ Event.remote RemoteCall.MonitStatus ::
              statusEvents x (cli.remoteClient.MonitStatus w.remote).1.1.Procs }) := by
  rcases h : cli.remoteClient.MonitStatus w.remote with ⟨⟨resp, err⟩, s1⟩
  cases err with
  | some e => simp [Cli.Status, call_bind_run, h, log.Fatalf]
  | none =>
    simp only [Cli.Status, call_bind_run, h, emit_bind_run]
    simp [bind_run, Prog.bind, forRange_emit, emit, statusEvents]

/-- What `ProcInfo` does, in full. -/
theorem ProcInfo_run (cli : Cli σ ν) (procName : String) (w : World σ) :
    cli.ProcInfo procName w =
      (Outcome.returned (),
        { remote := (cli.remoteClient.GetProcByName procName w.remote).2,
          trace := w.trace ++ Event.remote (RemoteCall.GetProcByName procName) ::
            (if (cli.remoteClient.GetProcByName procName w.remote).1 = [] then
              [Event.log Level.error "process %s not found" [LogArg.str procName]]
             else procInfoEvents (cli.remoteClient.GetProcByName procName w.remote).1) }) := by
  simp only [Cli.ProcInfo, call_bind_run, ite_run, List.length_eq_zero]
  split
  · simp [log.Errorf, emit]
  · simp only [emit_bind_run]
    simp [bind_run, Prog.bind, forRange_emit, emit, procInfoEvents]

/-- What `DeleteAllProcess` leaves in the trace and how it ends. -/
theorem DeleteAllProcess_run (cli : Cli σ ν) (w : World σ) :
    ((cli.DeleteAllProcess w).1 =
      match (cli.remoteClient.MonitStatus w.remote).1.2 with
      | some _ => Outcome.fatal
      | none => Outcome.returned ()) ∧
    ((cli.DeleteAllProcess w).2.trace =
      w.trace ++ Event.remote RemoteCall.MonitStatus ::
        match (cli.remoteClient.MonitStatus w.remote).1.2 with
        | some e => [Event.log Level.fatal "Failed to get status due to: %+v" [LogArg.err e]]
        | none =>
          if (cli.remoteClient.MonitStatus w.remote).1.1.Procs.length = 0 then
            [Event.log Level.warn "All processes have been stopped and deleted" []]
          else deleteAllEvents (cli.remoteClient.MonitStatus w.remote).1.1.Procs) ∧
    (cli.DeleteAllProcess w).2.remote =
      match (cli.remoteClient.MonitStatus w.remote).1.2 with
      | some _ => (cli.remoteClient.MonitStatus w.remote).2
      | none => deleteAllRemote cli (cli.remoteClient.MonitStatus w.remote).1.1.Procs
          (cli.remoteClient.MonitStatus w.remote).2 := by
  rcases h : cli.remoteClient.MonitStatus w.remote with ⟨⟨resp, err⟩, s1⟩
  cases err with
  | some e => simp [Cli.DeleteAllProcess, call_bind_run, h, log.Fatalf]
  | none =>
    simp only [Cli.DeleteAllProcess, call_bind_run, h, ite_run]
    split
    · rename_i h0
      simp [log.Warnf, emit, deleteAllRemote, List.length_eq_zero.mp h0]
    · have hd := forRange_delete cli resp.Procs
        { remote := s1, trace := w.trace ++ [Event.remote RemoteCall.MonitStatus] }
      have hr := forRange_delete_remote cli resp.Procs
        { remote := s1, trace := w.trace ++ [Event.remote RemoteCall.MonitStatus] }
      refine ⟨hd.1, ?_, hr⟩
      rw [hd.2]
      simp

end Run

/-! ## Decimal numerals -/

section Decimal

theorem digitChar_toNat (d : Nat) (h : d < 10) : (digitChar d).toNat = 48 + d := by
  interval_cases d <;> rfl

theorem digitChar_ne_minus (d : Nat) (h : d < 10) : digitChar d ≠ '-' := by
  interval_cases d <;> decide

theorem decDigitsAux_spec (fuel n : Nat) (h : n ≤ fuel) :
    (∀ d ∈ decDigitsAux fuel n, d < 10) ∧
    (decDigitsAux fuel n).foldl (fun a d => 10 * a + d) 0 = n ∧
    decDigitsAux fuel n ≠ [] := by
  induction fuel generalizing n with
  | zero =>
    have : n = 0 := by omega
    subst this
    simp [decDigitsAux]
  | succ fuel ih =>
    unfold decDigitsAux
    split
    · simp; omega
    · obtain ⟨h1, h2, _⟩ := ih (n / 10) (by omega)
      refine ⟨?_, ?_, by simp⟩
      · intro d hd
        rcases List.mem_append.mp hd with hd | hd
        · exact h1 d hd
        · simp at hd; omega
      · rw [List.foldl_append, h2]
        simp
        omega

theorem foldl_readStep (ds : List Nat) (h : ∀ d ∈ ds, d < 10) (a : Nat) :
    (ds.map digitChar).foldl readStep (some a)
      = some (ds.foldl (fun a d => 10 * a + d) a) := by
  induction ds generalizing a with
  | nil => rfl
  | cons d ds ih =>
    have hd : d < 10 := h d (by simp)
    have ht := digitChar_toNat d hd
    simp only [List.map_cons, List.foldl_cons]
    have : readStep (some a) (digitChar d) = some (10 * a + d) := by
      simp only [readStep, ht]
      rw [if_pos (by omega)]
      congr 1
      omega
    rw [this]
    exact ih (fun e he => h e (by simp [he])) _

theorem readDigits_decDigits (n : Nat) :
    readDigits ((decDigits n).map digitChar) = some n := by
  obtain ⟨h1, h2, h3⟩ := decDigitsAux_spec n n (le_refl n)
  unfold readDigits decDigits
  rw [if_neg (by simpa using h3), foldl_readStep _ h1, h2]

/-- Reading back what `strconv.Itoa` wrote gives the number: the text is its decimal numeral. -/
theorem readDecimal_Itoa (n : Int) : readDecimal (strconv.Itoa n) = some n := by
  cases n with
  | ofNat m =>
    obtain ⟨h1, _, h3⟩ := decDigitsAux_spec m m (le_refl m)
    have hr := readDigits_decDigits m
    unfold decDigits at hr
    simp only [strconv.Itoa, readDecimal, decDigits]
    cases hl : decDigitsAux m m with
    | nil => exact absurd hl h3
    | cons d ds =>
      rw [hl] at hr h1
      simp only [List.map_cons] at hr ⊢
      rw [if_neg (digitChar_ne_minus d (h1 d (by simp))), hr]
      rfl
  | negSucc m =>
    simp only [strconv.Itoa, readDecimal]
    rw [if_pos trivial, readDigits_decDigits]
    rfl

end Decimal

/-! ## What each forwarding method does, in full -/

section Methods

variable {σ ν : Type}

/-- What `InitCli` does, in full. -/
theorem InitCli_run
    (start : String → Duration → σ → (RemoteClient σ ν × Option GoError) × σ)
    (dsn : String) (timeout : Duration) (w : World σ) :
    InitCli start dsn timeout w =
      match (start dsn timeout w.remote).1.2 with
      | some e => (Outcome.fatal,
          { remote := (start dsn timeout w.remote).2,
            trace := w.trace ++ [Event.dial dsn timeout,
              Event.log Level.fatal "Failed to start remote client due to: %+v" [LogArg.err e]] })
      | none => (Outcome.returned { remoteClient := (start dsn timeout w.remote).1.1 },
          { remote := (start dsn timeout w.remote).2,
            trace := w.trace ++ [Event.dial dsn timeout] }) := by
  rcases h : start dsn timeout w.remote with ⟨⟨client, err⟩, s1⟩
  cases err <;>
    simp [InitCli, master.StartRemoteClient, bind_run, Prog.bind, h, log.Fatalf, pure_run]

/-- What `Save` does, in full. -/
theorem Save_run (cli : Cli σ ν) (w : World σ) :
    cli.Save w =
      match (cli.remoteClient.Save w.remote).1 with
      | some e => (Outcome.fatal,
          { remote := (cli.remoteClient.Save w.remote).2,
            trace := w.trace ++ [Event.remote RemoteCall.Save,
              Event.log Level.fatal "Failed to save list of processes due to: %+v"
                [LogArg.err e]] })
      | none => (Outcome.returned (),
          { remote := (cli.remoteClient.Save w.remote).2,
            trace := w.trace ++ [Event.remote RemoteCall.Save] }) := by
  simp only [Cli.Save, call_bind_run]
  cases (cli.remoteClient.Save w.remote).1 <;> simp [log.Fatalf, pure_run]

/-- What `StartGoBin` does, in full. -/
theorem StartGoBin_run (cli : Cli σ ν) (sourcePath name : String) (keepAlive : Bool)
    (args : List String) (w : World σ) :
    cli.StartGoBin sourcePath name keepAlive args w =
      match (cli.remoteClient.StartGoBin sourcePath name keepAlive args w.remote).1 with
      | some e => (Outcome.fatal,
          { remote := (cli.remoteClient.StartGoBin sourcePath name keepAlive args w.remote).2,
            trace := w.trace ++
              [Event.log Level.debug "StartGoBin: %+v %v %v %v ..."
                [LogArg.str sourcePath, LogArg.str name, LogArg.bool keepAlive, LogArg.strs args],
               Event.remote (RemoteCall.StartGoBin sourcePath name keepAlive args),
               Event.log Level.fatal "Failed to start go bin, error: %+v" [LogArg.err e]] })
      | none => (Outcome.returned (),
          { remote := (cli.remoteClient.StartGoBin sourcePath name keepAlive args w.remote).2,
            trace := w.trace ++
              [Event.log Level.debug "StartGoBin: %+v %v %v %v ..."
                [LogArg.str sourcePath, LogArg.str name, LogArg.bool keepAlive, LogArg.strs args],
               Event.remote (RemoteCall.StartGoBin sourcePath name keepAlive args)] }) := by
  simp only [Cli.StartGoBin, log.Debugf, emit_bind_run, call_bind_run]
  cases (cli.remoteClient.StartGoBin sourcePath name keepAlive args w.remote).1 <;>
    simp [log.Fatalf, pure_run]

/-- What `StartProcess` does, in full. -/
theorem StartProcess_run (cli : Cli σ ν) (procName : String) (w : World σ) :
    cli.StartProcess procName w =
      (Outcome.returned (),
        { remote := (cli.remoteClient.StartProcess procName w.remote).2,
          trace := w.trace ++ Event.remote (RemoteCall.StartProcess procName) ::
            match (cli.remoteClient.StartProcess procName w.remote).1 with
            | some e =>
              [Event.log Level.error "Failed to start process due to: %+v" [LogArg.err e]]
            | none => [] }) := by
  simp only [Cli.StartProcess, call_bind_run]
  cases (cli.remoteClient.StartProcess procName w.remote).1 <;>
    simp [log.Errorf, emit, pure_run]

/-- What `RestartProcess` does, in full. -/
theorem RestartProcess_run (cli : Cli σ ν) (procName : String) (w : World σ) :
    cli.RestartProcess procName w =
      if (cli.remoteClient.GetProcByName procName w.remote).1 = [] then
        (Outcome.returned (),
          { remote := (cli.remoteClient.GetProcByName procName w.remote).2,
            trace := w.trace ++ [Event.remote (RemoteCall.GetProcByName procName),
              Event.log Level.error "process %s not found" [LogArg.str procName]] })
      else
        match (cli.remoteClient.RestartProcess procName
            (cli.remoteClient.GetProcByName procName w.remote).2).1 with
        | some e => (Outcome.fatal,
            { remote := (cli.remoteClient.RestartProcess procName
                (cli.remoteClient.GetProcByName procName w.remote).2).2,
              trace := w.trace ++ [Event.remote (RemoteCall.GetProcByName procName),
                Event.remote (RemoteCall.RestartProcess procName),
                Event.log Level.fatal "Failed to restart process due to: %+v" [LogArg.err e]] })
        | none => (Outcome.returned (),
            { remote := (cli.remoteClient.RestartProcess procName
                (cli.remoteClient.GetProcByName procName w.remote).2).2,
              trace := w.trace ++ [Event.remote (RemoteCall.GetProcByName procName),
                Event.remote (RemoteCall.RestartProcess procName)] }) := by
  simp only [Cli.RestartProcess, call_bind_run, ite_run, List.length_eq_zero]
  split
  · simp [log.Errorf, emit]
  · cases (cli.remoteClient.RestartProcess procName
        (cli.remoteClient.GetProcByName procName w.remote).2).1 <;>
      simp [log.Fatalf, pure_run]

/-- What `StopProcess` does, in full. -/
theorem StopProcess_run (cli : Cli σ ν) (procName : String) (w : World σ) :
    cli.StopProcess procName w =
      if (cli.remoteClient.GetProcByName procName w.remote).1 = [] then
        (Outcome.returned (),
          { remote := (cli.remoteClient.GetProcByName procName w.remote).2,
            trace := w.trace ++ [Event.remote (RemoteCall.GetProcByName procName),
              Event.log Level.warn "process %s not found" [LogArg.str procName]] })
      else
        match (cli.remoteClient.StopProcess procName
            (cli.remoteClient.GetProcByName procName w.remote).2).1 with
        | some e => (Outcome.fatal,
            { remote := (cli.remoteClient.StopProcess procName
                (cli.remoteClient.GetProcByName procName w.remote).2).2,
              trace := w.trace ++ [Event.remote (RemoteCall.GetProcByName procName),
                Event.remote (RemoteCall.StopProcess procName),
                Event.log Level.fatal "Failed to stop process due to: %+v" [LogArg.err e]] })
        | none => (Outcome.returned (),
            { remote := (cli.remoteClient.StopProcess procName
                (cli.remoteClient.GetProcByName procName w.remote).2).2,
              trace := w.trace ++ [Event.remote (RemoteCall.GetProcByName procName),
                Event.remote (RemoteCall.StopProcess procName)] }) := by
  simp only [Cli.StopProcess, call_bind_run, ite_run, List.length_eq_zero]
  split
  · simp [log.Warnf, emit]
  · cases (cli.remoteClient.StopProcess procName
        (cli.remoteClient.GetProcByName procName w.remote).2).1 <;>
      simp [log.Fatalf, pure_run]

/-- What `DeleteProcess` does, in full. -/
theorem DeleteProcess_run (cli : Cli σ ν) (procName : String) (w : World σ) :
    cli.DeleteProcess procName w =
      if (cli.remoteClient.GetProcByName procName w.remote).1 = [] then
        (Outcome.returned (),
          { remote := (cli.remoteClient.GetProcByName procName w.remote).2,
            trace := w.trace ++ [Event.remote (RemoteCall.GetProcByName procName),
              Event.log Level.error "process %s not found" [LogArg.str procName]] })
      else
        match (cli.remoteClient.DeleteProcess procName
            (cli.remoteClient.GetProcByName procName w.remote).2).1 with
        | some e => (Outcome.fatal,
            { remote := (cli.remoteClient.DeleteProcess procName
                (cli.remoteClient.GetProcByName procName w.remote).2).2,
              trace := w.trace ++ [Event.remote (RemoteCall.GetProcByName procName),
                Event.remote (RemoteCall.DeleteProcess procName),
                Event.log Level.fatal "Failed to delete process due to: %+v" [LogArg.err e]] })
        | none => (Outcome.returned (),
            { remote := (cli.remoteClient.DeleteProcess procName
                (cli.remoteClient.GetProcByName procName w.remote).2).2,
              trace := w.trace ++ [Event.remote (RemoteCall.GetProcByName procName),
                Event.remote (RemoteCall.DeleteProcess procName)] }) := by
  simp only [Cli.DeleteProcess, call_bind_run, ite_run, List.length_eq_zero]
  split
  · simp [log.Errorf, emit]
  · cases (cli.remoteClient.DeleteProcess procName
        (cli.remoteClient.GetProcByName procName w.remote).2).1 <;>
      simp [log.Fatalf, pure_run]

/-! ## Concrete runs -/

/-- The numerals `strconv.Itoa` writes for a few numbers. -/
theorem Itoa_samples :
    strconv.Itoa 0 = "0" ∧ strconv.Itoa 7 = "7" ∧ strconv.Itoa 4242 = "4242" ∧
    strconv.Itoa (-17) = "-17" ∧ fmt.Sprintf_d 1000 = "1000" := by
  refine ⟨?_, ?_, ?_, ?_, ?_⟩ <;> decide

/-- A run of `Status` on two processes, one running and one stopped. -/
theorem Status_sample :
    Cli.Status sampleExternals
        ⟨scriptedClient [sampleProc "web" 4242 "running", sampleProc "job" 0 "stopped"]
          none none []⟩ emptyWorld
      = (Outcome.returned (),
          { remote := (),
            trace :=
              [Event.remote RemoteCall.MonitStatus,
               Event.table TableOp.GetTableWriter,
               Event.table (TableOp.SetAlignment Alignment.ALIGN_CENTER),
               Event.table (TableOp.SetHeader
                 ["name", "pid", "status", "uptime", "restart", "CPU·%", "memory"]),
               Event.table (TableOp.Append
                 [⟨some Color.cyan, "web"⟩, ⟨none, "4242"⟩, ⟨some Color.green, "running"⟩,
                  ⟨none, "1m"⟩, ⟨none, "2"⟩, ⟨none, "3"⟩, ⟨none, "4096 B"⟩]),
               Event.table (TableOp.Append
                 [⟨some Color.cyan, "job"⟩, ⟨none, "0"⟩, ⟨some Color.red, "stopped"⟩,
                  ⟨none, "1m"⟩, ⟨none, "2"⟩, ⟨none, "3"⟩, ⟨none, "4096 B"⟩]),
               Event.table (TableOp.SetRowLine true),
               Event.table TableOp.Render] }) := by
  rfl

/-- A run of `RestartProcess` on a name the remote side does not know. -/
theorem RestartProcess_sample_missing :
    Cli.RestartProcess ⟨scriptedClient [] none none []⟩ "ghost" emptyWorld
      = (Outcome.returned (),
          { remote := (),
            trace := [Event.remote (RemoteCall.GetProcByName "ghost"),
                      Event.log Level.error "process %s not found" [LogArg.str "ghost"]] }) := by
  rfl

/-- Runs against a remote side holding `"web"` and `"db"`: `DeleteAllProcess`
removes both, `DeleteProcess "web"` removes `"web"` only, and `ProcInfo` and
`Status` leave the registry as it was. -/
theorem registry_sample_runs :
    (Cli.DeleteAllProcess ⟨registryClient⟩ { remote := ["web", "db"], trace := [] }).2.remote
      = [] ∧
    (Cli.DeleteProcess ⟨registryClient⟩ "web" { remote := ["web", "db"], trace := [] }).2.remote
      = ["db"] ∧
    (Cli.ProcInfo ⟨registryClient⟩ "web" { remote := ["web", "db"], trace := [] }).2.remote
      = ["web", "db"] ∧
    (Cli.Status sampleExternals ⟨registryClient⟩
        { remote := ["web", "db"], trace := [] }).2.remote = ["web", "db"] ∧
    remoteCalls (Cli.StartProcess ⟨registryClient⟩ "ghost"
        { remote := ["web", "db"], trace := [] }).2.trace
      = [RemoteCall.StartProcess "ghost"] := by
  refine ⟨?_, ?_, ?_, ?_, ?_⟩ <;> decide

/-- A run of `InitCli` against an address that cannot be reached. -/
theorem InitCli_sample_unreachable :
    (InitCli (scriptedStart (some ⟨"timeout"⟩)) "localhost:9876" 1000 emptyWorld).2.trace
      = [Event.dial "localhost:9876" 1000,
         Event.log Level.fatal "Failed to start remote client due to: %+v"
           [LogArg.err ⟨"timeout"⟩]] ∧
    (InitCli (scriptedStart (some ⟨"timeout"⟩)) "localhost:9876" 1000 emptyWorld).1
      = Outcome.fatal := by
  constructor <;> rfl

end Methods

/-! ## The claims -/

section Claims

variable {σ ν : Type}

/-- C1: `RestartProcess`, `StopProcess` and `DeleteProcess` each send exactly one
`GetProcByName(procName)` first and then send their own lifecycle request, once
and for the same name, exactly when the returned map is not empty; on an empty
map nothing else is sent and the method returns normally.  The requests reach
the remote side: after an empty map it is in the state the query left, and
otherwise in the state the lifecycle request, applied to that state, produces. -/
theorem check_exists_then_act (cli : Cli σ ν) (procName : String) (w : World σ) :
    (remoteCalls (cli.RestartProcess procName w).2.trace
        = remoteCalls w.trace ++ RemoteCall.GetProcByName procName ::
            (if (cli.remoteClient.GetProcByName procName w.remote).1 = [] then []
             else [RemoteCall.RestartProcess procName])) ∧
    (remoteCalls (cli.StopProcess procName w).2.trace
        = remoteCalls w.trace ++ RemoteCall.GetProcByName procName ::
            (if (cli.remoteClient.GetProcByName procName w.remote).1 = [] then []
             else [RemoteCall.StopProcess procName])) ∧
    (remoteCalls (cli.DeleteProcess procName w).2.trace
        = remoteCalls w.trace ++ RemoteCall.GetProcByName procName ::
            (if (cli.remoteClient.GetProcByName procName w.remote).1 = [] then []
             else [RemoteCall.DeleteProcess procName])) ∧
    ((cli.remoteClient.GetProcByName procName w.remote).1 = [] →
      (cli.RestartProcess procName w).1 = Outcome.returned () ∧
      (cli.StopProcess procName w).1 = Outcome.returned () ∧
      (cli.DeleteProcess procName w).1 = Outcome.returned ()) ∧
    ((cli.remoteClient.GetProcByName procName w.remote).1 = [] →
      (cli.RestartProcess procName w).2.remote
        = (cli.remoteClient.GetProcByName procName w.remote).2 ∧
      (cli.StopProcess procName w).2.remote
        = (cli.remoteClient.GetProcByName procName w.remote).2 ∧
      (cli.DeleteProcess procName w).2.remote
        = (cli.remoteClient.GetProcByName procName w.remote).2) ∧
    ((cli.remoteClient.GetProcByName procName w.remote).1 ≠ [] →
      (cli.RestartProcess procName w).2.remote
        = (cli.remoteClient.RestartProcess procName
            (cli.remoteClient.GetProcByName procName w.remote).2).2 ∧
      (cli.StopProcess procName w).2.remote
        = (cli.remoteClient.StopProcess procName
            (cli.remoteClient.GetProcByName procName w.remote).2).2 ∧
      (cli.DeleteProcess procName w).2.remote
        = (cli.remoteClient.DeleteProcess procName
            (cli.remoteClient.GetProcByName procName w.remote).2).2) := by
  rw [RestartProcess_run, StopProcess_run, DeleteProcess_run]
  refine ⟨?_, ?_, ?_, ?_, ?_, ?_⟩
  rotate_left 4
  · intro h
    simp [h]
  · intro h
    rw [if_neg h, if_neg h, if_neg h]
    refine ⟨?_, ?_, ?_⟩
    · cases (cli.remoteClient.RestartProcess procName
        (cli.remoteClient.GetProcByName procName w.remote).2).1 <;> rfl
    · cases (cli.remoteClient.StopProcess procName
        (cli.remoteClient.GetProcByName procName w.remote).2).1 <;> rfl
    · cases (cli.remoteClient.DeleteProcess procName
        (cli.remoteClient.GetProcByName procName w.remote).2).1 <;> rfl
  · split
    · simp [remoteCalls, List.filterMap_cons]
    · split <;> simp [remoteCalls, List.filterMap_cons]
  · split
    · simp [remoteCalls, List.filterMap_cons]
    · split <;> simp [remoteCalls, List.filterMap_cons]
  · split
    · simp [remoteCalls, List.filterMap_cons]
    · split <;> simp [remoteCalls, List.filterMap_cons]
  · intro h
    simp [h]

/-- C2 as stated fails: the remote side reports `"ghost"` as not found, and
`StartProcess "ghost"` still forwards a `StartProcess` request for that name. -/
theorem startProcess_forwards_unregistered :
    ((scriptedClient [] none (some ⟨"not found"⟩) []).GetProcByName "ghost" ()).1 = [] ∧
    RemoteCall.StartProcess "ghost" ∈
      remoteCalls ((Cli.StartProcess ⟨scriptedClient [] none (some ⟨"not found"⟩) []⟩ "ghost"
        emptyWorld).2.trace) := by
  constructor
  · rfl
  · rw [StartProcess_run]
    simp [remoteCalls, List.filterMap_cons, emptyWorld, scriptedClient]

/-- C2, amended: for every name, one the remote side reports as not found
included, `StartProcess` makes no existence query and forwards exactly one
`StartProcess` request for that name, which reaches the remote side; it returns
normally, and an error answered by the remote side is written to the log at
error level. -/
theorem startProcess_forwards_unconditionally (cli : Cli σ ν) (procName : String)
    (w : World σ) :
    remoteCalls (cli.StartProcess procName w).2.trace
      = remoteCalls w.trace ++ [RemoteCall.StartProcess procName] ∧
    (cli.StartProcess procName w).2.remote
      = (cli.remoteClient.StartProcess procName w.remote).2 ∧
    (cli.StartProcess procName w).1 = Outcome.returned () ∧
    (∀ e, (cli.remoteClient.StartProcess procName w.remote).1 = some e →
      logLines (cli.StartProcess procName w).2.trace
        = logLines w.trace ++
            [(Level.error, "Failed to start process due to: %+v", [LogArg.err e])]) := by
  rw [StartProcess_run]
  refine ⟨?_, rfl, rfl, ?_⟩
  · split <;> simp [remoteCalls, List.filterMap_cons]
  · intro e he
    simp [he, logLines, List.filterMap_cons]

/-- The amended C2 at a concrete run: `"ghost"` is not registered, the request
is forwarded once and the error is logged. -/
theorem startProcess_forwards_unconditionally_witness :
    ((scriptedClient [] none (some ⟨"not found"⟩) []).GetProcByName "ghost" ()).1 = [] ∧
    remoteCalls ((Cli.StartProcess ⟨scriptedClient [] none (some ⟨"not found"⟩) []⟩ "ghost"
        emptyWorld).2.trace) = [RemoteCall.StartProcess "ghost"] ∧
    (Cli.StartProcess ⟨scriptedClient [] none (some ⟨"not found"⟩) []⟩ "ghost"
        emptyWorld).1 = Outcome.returned () :=
  ⟨rfl,
   (startProcess_forwards_unconditionally ⟨scriptedClient [] none (some ⟨"not found"⟩) []⟩
      "ghost" emptyWorld).1,
   (startProcess_forwards_unconditionally ⟨scriptedClient [] none (some ⟨"not found"⟩) []⟩
      "ghost" emptyWorld).2.2.1⟩

/-- C3, the code at the failing input: `MonitStatus` lists the process `"a"`,
the remote `DeleteProcess "a"` answers an error, and `DeleteAllProcess`
returns normally having logged only that `"a"` has quit; the error appears
nowhere in the trace. -/
theorem deleteAll_drops_delete_error :
    ((scriptedClient [sampleProc "a" 7 "running"] none (some ⟨"boom"⟩) []).DeleteProcess
        "a" ()).1 = some ⟨"boom"⟩ ∧
    Cli.DeleteAllProcess ⟨scriptedClient [sampleProc "a" 7 "running"] none (some ⟨"boom"⟩) []⟩
        emptyWorld
      = (Outcome.returned (),
          { remote := (),
            trace := [Event.remote RemoteCall.MonitStatus,
                      Event.remote (RemoteCall.DeleteProcess "a"),
                      Event.log Level.info "proc: %s has quit" [LogArg.str "a"]] }) := by
  constructor <;> rfl

/-- C4: when `MonitStatus` succeeds, `DeleteAllProcess` sends `MonitStatus` and
then one `DeleteProcess(p.Name)` per listed process, in the order of the
response, and nothing else (no `GetProcByName`); with no process listed no delete
is sent; when `MonitStatus` answers an error the call is fatal and no delete is
sent.  The deletes reach the remote side: it ends in the state obtained by
applying the `DeleteProcess` of each listed process, in order, to the state
`MonitStatus` left, and in the state `MonitStatus` left when that answered an error. -/
theorem deleteAll_deletes_listed (cli : Cli σ ν) (w : World σ) :
    ((cli.remoteClient.MonitStatus w.remote).1.2 = none →
      (cli.DeleteAllProcess w).1 = Outcome.returned () ∧
      remoteCalls (cli.DeleteAllProcess w).2.trace
        = remoteCalls w.trace ++ RemoteCall.MonitStatus ::
            (cli.remoteClient.MonitStatus w.remote).1.1.Procs.map
              (fun p => RemoteCall.DeleteProcess p.Name)) ∧
    ((cli.remoteClient.MonitStatus w.remote).1.2 = none →
      (cli.remoteClient.MonitStatus w.remote).1.1.Procs = [] →
      remoteCalls (cli.DeleteAllProcess w).2.trace
        = remoteCalls w.trace ++ [RemoteCall.MonitStatus]) ∧
    ((cli.remoteClient.MonitStatus w.remote).1.2 ≠ none →
      (cli.DeleteAllProcess w).1 = Outcome.fatal ∧
      remoteCalls (cli.DeleteAllProcess w).2.trace
        = remoteCalls w.trace ++ [RemoteCall.MonitStatus]) ∧
    ((cli.remoteClient.MonitStatus w.remote).1.2 = none →
      (cli.DeleteAllProcess w).2.remote
        = (cli.remoteClient.MonitStatus w.remote).1.1.Procs.foldl
            (fun s p => (cli.remoteClient.DeleteProcess p.Name s).2)
            (cli.remoteClient.MonitStatus w.remote).2) ∧
    ((cli.remoteClient.MonitStatus w.remote).1.2 ≠ none →
      (cli.DeleteAllProcess w).2.remote = (cli.remoteClient.MonitStatus w.remote).2) := by
  obtain ⟨ho, ht, hrem⟩ := DeleteAllProcess_run cli w
  rw [ho, ht, hrem]
  have key : (cli.remoteClient.MonitStatus w.remote).1.2 = none →
      remoteCalls (w.trace ++ Event.remote RemoteCall.MonitStatus ::
        (if (cli.remoteClient.MonitStatus w.remote).1.1.Procs.length = 0 then
            [Event.log Level.warn "All processes have been stopped and deleted" []]
          else deleteAllEvents (cli.remoteClient.MonitStatus w.remote).1.1.Procs))
        = remoteCalls w.trace ++ RemoteCall.MonitStatus ::
            (cli.remoteClient.MonitStatus w.remote).1.1.Procs.map
              (fun p => RemoteCall.DeleteProcess p.Name) := by
    intro _
    by_cases h0 : (cli.remoteClient.MonitStatus w.remote).1.1.Procs.length = 0
    · rw [if_pos h0, List.length_eq_zero.mp h0]
      simp [remoteCalls, List.filterMap_append, List.filterMap_cons]
    · rw [if_neg h0, ← List.singleton_append, remoteCalls_append, remoteCalls_append,
        remoteCalls_deleteAllEvents]
      rfl
  refine ⟨?_, ?_, ?_, ?_, ?_⟩
  · intro h
    rw [h]
    exact ⟨rfl, key h⟩
  · intro h hnil
    rw [h]
    have := key h
    rw [hnil] at this ⊢
    simpa using this
  · intro h
    cases he : (cli.remoteClient.MonitStatus w.remote).1.2 with
    | none => exact absurd he h
    | some e => simp [remoteCalls, List.filterMap_cons]
  · intro h
    rw [h]
    rfl
  · intro h
    cases he : (cli.remoteClient.MonitStatus w.remote).1.2 with
    | none => exact absurd he h
    | some e => rfl

/-- C5: `InitCli` dials `master.StartRemoteClient` exactly once, with the given
`dsn` and `timeout`; when the dial answers an error the call is fatal and no
`Cli` comes back; otherwise the `Cli` returned holds the very client the dial
answered. -/
theorem initCli_connects_once
    (start : String → Duration → σ → (RemoteClient σ ν × Option GoError) × σ)
    (dsn : String) (timeout : Duration) (w : World σ) :
    dials (InitCli start dsn timeout w).2.trace = dials w.trace ++ [(dsn, timeout)] ∧
    (InitCli start dsn timeout w).2.remote = (start dsn timeout w.remote).2 ∧
    ((start dsn timeout w.remote).1.2 ≠ none →
      (InitCli start dsn timeout w).1 = Outcome.fatal) ∧
    ((start dsn timeout w.remote).1.2 = none →
      (InitCli start dsn timeout w).1
        = Outcome.returned { remoteClient := (start dsn timeout w.remote).1.1 }) := by
  rw [InitCli_run]
  cases (start dsn timeout w.remote).1.2 <;> simp [dials, List.filterMap_cons]

/-- C6: `StartGoBin` sends exactly one remote request, `StartGoBin` with the
four arguments it was given, unchanged; the remote side is left in the state that
request produces; the call is fatal exactly when the request answers an error. -/
theorem startGoBin_forwards (cli : Cli σ ν) (sourcePath name : String) (keepAlive : Bool)
    (args : List String) (w : World σ) :
    remoteCalls (cli.StartGoBin sourcePath name keepAlive args w).2.trace
      = remoteCalls w.trace ++ [RemoteCall.StartGoBin sourcePath name keepAlive args] ∧
    (cli.StartGoBin sourcePath name keepAlive args w).2.remote
      = (cli.remoteClient.StartGoBin sourcePath name keepAlive args w.remote).2 ∧
    ((cli.StartGoBin sourcePath name keepAlive args w).1 = Outcome.fatal ↔
      (cli.remoteClient.StartGoBin sourcePath name keepAlive args w.remote).1 ≠ none) := by
  rw [StartGoBin_run]
  cases (cli.remoteClient.StartGoBin sourcePath name keepAlive args w.remote).1 <;>
    simp [remoteCalls, List.filterMap_cons]

/-- C7: when `MonitStatus` succeeds with processes `p_0 .. p_{n-1}`, `Status`
sets the seven-column header and appends exactly `n` rows, row `i` being the row
of `p_i`; every row has seven cells, in the order of the header, the pid and the
restart count being decimal numerals of those numbers; when `MonitStatus` answers
an error the call is fatal and no row is appended. -/
theorem status_displays_every_process (x : Externals ν) (cli : Cli σ ν) (w : World σ) :
    ((cli.remoteClient.MonitStatus w.remote).1.2 = none →
      (cli.Status x w).1 = Outcome.returned () ∧
      Event.table (TableOp.SetHeader
          ["name", "pid", "status", "uptime", "restart", "CPU·%", "memory"])
        ∈ (cli.Status x w).2.trace ∧
      appendedRows (cli.Status x w).2.trace
        = appendedRows w.trace ++
            (cli.remoteClient.MonitStatus w.remote).1.1.Procs.map (statusRow x) ∧
      (appendedRows (cli.Status x w).2.trace).length
        = (appendedRows w.trace).length +
            (cli.remoteClient.MonitStatus w.remote).1.1.Procs.length) ∧
    (∀ p : Proc ν,
      (statusRow x p).length = 7 ∧
      (statusRow x p).length = statusHeader.length ∧
      (statusRow x p).map Cell.text
        = [p.Name, fmt.Sprintf_d p.Pid, p.Status.Status, p.Status.Uptime,
           strconv.Itoa p.Status.Restarts, strconv.Itoa (x.toInt p.Status.Sys.CPU),
           x.FormatMemory (x.toInt p.Status.Sys.Memory)] ∧
      readDecimal (fmt.Sprintf_d p.Pid) = some p.Pid ∧
      readDecimal (strconv.Itoa p.Status.Restarts) = some p.Status.Restarts) ∧
    ((cli.remoteClient.MonitStatus w.remote).1.2 ≠ none →
      (cli.Status x w).1 = Outcome.fatal ∧
      appendedRows (cli.Status x w).2.trace = appendedRows w.trace) := by
  rw [Status_run]
  refine ⟨?_, ?_, ?_⟩
  · intro h
    rw [h]
    have hrows : appendedRows (w.trace ++ Event.remote RemoteCall.MonitStatus ::
          statusEvents x (cli.remoteClient.MonitStatus w.remote).1.1.Procs)
        = appendedRows w.trace ++
            (cli.remoteClient.MonitStatus w.remote).1.1.Procs.map (statusRow x) := by
      rw [← List.singleton_append, appendedRows_append, appendedRows_append,
        appendedRows_statusEvents]
      rfl
    refine ⟨rfl, ?_, hrows, ?_⟩
    · simp [statusEvents, statusHeader]
    · simp only [hrows, List.length_append, List.length_map]
  · intro p
    refine ⟨rfl, rfl, ?_, readDecimal_Itoa _, readDecimal_Itoa _⟩
    simp [statusRow, statusCell, Cell.plain, color.CyanString, color.GreenString,
      color.RedString]
    split <;> rfl
  · intro h
    cases he : (cli.remoteClient.MonitStatus w.remote).1.2 with
    | none => exact absurd he h
    | some e => simp [appendedRows, List.filterMap_append, List.filterMap_cons]

/-- C8: in every row `Status` appends, the third cell is the status cell of the
process: its text is the status string itself, it is green exactly when the
status string equals `"running"` and red for every other string, the empty
string and `"Running"` included. -/
theorem status_cell_green_iff_running (x : Externals ν) (cli : Cli σ ν) (w : World σ) :
    ((cli.remoteClient.MonitStatus w.remote).1.2 = none →
      appendedRows (cli.Status x w).2.trace
        = appendedRows w.trace ++
            (cli.remoteClient.MonitStatus w.remote).1.1.Procs.map (statusRow x)) ∧
    (∀ p : Proc ν,
      (statusRow x p)[2]? = some (statusCell p.Status.Status) ∧
      (statusCell p.Status.Status).text = p.Status.Status ∧
      ((statusCell p.Status.Status).color = some Color.green ↔ p.Status.Status = "running") ∧
      ((statusCell p.Status.Status).color = some Color.red ↔ p.Status.Status ≠ "running")) ∧
    statusCell "running" = { color := some Color.green, text := "running" } ∧
    statusCell "" = { color := some Color.red, text := "" } ∧
    statusCell "Running" = { color := some Color.red, text := "Running" } := by
  refine ⟨?_, ?_, by decide, by decide, by decide⟩
  · intro h
    rw [Status_run, h, ← List.singleton_append, appendedRows_append, appendedRows_append,
      appendedRows_statusEvents]
    rfl
  · intro p
    refine ⟨rfl, ?_, ?_, ?_⟩ <;>
      by_cases hs : p.Status.Status = "running" <;>
      simp [statusCell, color.GreenString, color.RedString, hs]

/-- C9: `StartProcess` sends exactly one `StartProcess(procName)`, always
returns normally and writes an error answered by the remote side to the log at
error level; `RestartProcess`, `StopProcess` and `DeleteProcess` on an existing
process, `StartGoBin` and `Save` are fatal exactly when their remote request
answers an error and return normally exactly when it answers none. -/
theorem error_severity_by_operation (cli : Cli σ ν) (procName sourcePath name : String)
    (keepAlive : Bool) (args : List String) (w : World σ) :
    (remoteCalls (cli.StartProcess procName w).2.trace
        = remoteCalls w.trace ++ [RemoteCall.StartProcess procName] ∧
      (cli.StartProcess procName w).1 = Outcome.returned () ∧
      (∀ e, (cli.remoteClient.StartProcess procName w.remote).1 = some e →
        (cli.StartProcess procName w).2.trace
          = w.trace ++ [Event.remote (RemoteCall.StartProcess procName),
              Event.log Level.error "Failed to start process due to: %+v" [LogArg.err e]])) ∧
    ((cli.remoteClient.GetProcByName procName w.remote).1 ≠ [] →
      (((cli.RestartProcess procName w).1 = Outcome.fatal ↔
          (cli.remoteClient.RestartProcess procName
            (cli.remoteClient.GetProcByName procName w.remote).2).1 ≠ none) ∧
        ((cli.RestartProcess procName w).1 = Outcome.returned () ↔
          (cli.remoteClient.RestartProcess procName
            (cli.remoteClient.GetProcByName procName w.remote).2).1 = none)) ∧
      (((cli.StopProcess procName w).1 = Outcome.fatal ↔
          (cli.remoteClient.StopProcess procName
            (cli.remoteClient.GetProcByName procName w.remote).2).1 ≠ none) ∧
        ((cli.StopProcess procName w).1 = Outcome.returned () ↔
          (cli.remoteClient.StopProcess procName
            (cli.remoteClient.GetProcByName procName w.remote).2).1 = none)) ∧
      (((cli.DeleteProcess procName w).1 = Outcome.fatal ↔
          (cli.remoteClient.DeleteProcess procName
            (cli.remoteClient.GetProcByName procName w.remote).2).1 ≠ none) ∧
        ((cli.DeleteProcess procName w).1 = Outcome.returned () ↔
          (cli.remoteClient.DeleteProcess procName
            (cli.remoteClient.GetProcByName procName w.remote).2).1 = none))) ∧
    (((cli.StartGoBin sourcePath name keepAlive args w).1 = Outcome.fatal ↔
        (cli.remoteClient.StartGoBin sourcePath name keepAlive args w.remote).1 ≠ none) ∧
      ((cli.StartGoBin sourcePath name keepAlive args w).1 = Outcome.returned () ↔
        (cli.remoteClient.StartGoBin sourcePath name keepAlive args w.remote).1 = none)) ∧
    (((cli.Save w).1 = Outcome.fatal ↔ (cli.remoteClient.Save w.remote).1 ≠ none) ∧
      ((cli.Save w).1 = Outcome.returned () ↔ (cli.remoteClient.Save w.remote).1 = none)) := by
  rw [StartProcess_run, RestartProcess_run, StopProcess_run, DeleteProcess_run, StartGoBin_run,
    Save_run]
  refine ⟨⟨?_, rfl, ?_⟩, ?_, ?_, ?_⟩
  · split <;> simp [remoteCalls, List.filterMap_cons]
  · intro e he
    simp [he]
  · intro hex
    rw [if_neg hex, if_neg hex, if_neg hex]
    refine ⟨?_, ?_, ?_⟩
    · cases (cli.remoteClient.RestartProcess procName
        (cli.remoteClient.GetProcByName procName w.remote).2).1 <;> simp
    · cases (cli.remoteClient.StopProcess procName
        (cli.remoteClient.GetProcByName procName w.remote).2).1 <;> simp
    · cases (cli.remoteClient.DeleteProcess procName
        (cli.remoteClient.GetProcByName procName w.remote).2).1 <;> simp
  · cases (cli.remoteClient.StartGoBin sourcePath name keepAlive args w.remote).1 <;> simp
  · cases (cli.remoteClient.Save w.remote).1 <;> simp

/-- C10: `Status` sends exactly one `MonitStatus` and `ProcInfo` exactly one
`GetProcByName(procName)`; none of the requests they send changes the state of
the supervisor, and the remote side is left exactly in the state that one query
produces, so no other request reached it; `ProcInfo` appends no row for an empty
map and otherwise one two-cell row (green key, value) per entry of the map. -/
theorem display_is_read_only (x : Externals ν) (cli : Cli σ ν) (procName : String)
    (w : World σ) :
    (remoteCalls (cli.Status x w).2.trace = remoteCalls w.trace ++ [RemoteCall.MonitStatus] ∧
      ∀ c ∈ (remoteCalls (cli.Status x w).2.trace).drop (remoteCalls w.trace).length,
        c.stateChanging = false) ∧
    (remoteCalls (cli.ProcInfo procName w).2.trace
        = remoteCalls w.trace ++ [RemoteCall.GetProcByName procName] ∧
      ∀ c ∈ (remoteCalls (cli.ProcInfo procName w).2.trace).drop (remoteCalls w.trace).length,
        c.stateChanging = false) ∧
    ((cli.remoteClient.GetProcByName procName w.remote).1 = [] →
      appendedRows (cli.ProcInfo procName w).2.trace = appendedRows w.trace) ∧
    appendedRows (cli.ProcInfo procName w).2.trace
      = appendedRows w.trace ++
          (cli.remoteClient.GetProcByName procName w.remote).1.map infoRow ∧
    (∀ kv : String × String,
      infoRow kv = [color.GreenString kv.1, Cell.plain kv.2] ∧ (infoRow kv).length = 2) ∧
    (cli.Status x w).2.remote = (cli.remoteClient.MonitStatus w.remote).2 ∧
    (cli.ProcInfo procName w).2.remote
      = (cli.remoteClient.GetProcByName procName w.remote).2 := by
  have hSr : (cli.Status x w).2.remote = (cli.remoteClient.MonitStatus w.remote).2 := by
    rw [Status_run]
    split <;> rfl
  have hPr : (cli.ProcInfo procName w).2.remote
      = (cli.remoteClient.GetProcByName procName w.remote).2 := by
    rw [ProcInfo_run]
  have hS : remoteCalls (cli.Status x w).2.trace
      = remoteCalls w.trace ++ [RemoteCall.MonitStatus] := by
    rw [Status_run]
    split
    · simp [remoteCalls, List.filterMap_append, List.filterMap_cons]
    · rw [← List.singleton_append, remoteCalls_append, remoteCalls_append,
        remoteCalls_statusEvents]
      rfl
  have hP : remoteCalls (cli.ProcInfo procName w).2.trace
      = remoteCalls w.trace ++ [RemoteCall.GetProcByName procName] := by
    rw [ProcInfo_run]
    simp only
    rw [← List.singleton_append, remoteCalls_append, remoteCalls_append]
    split
    · rfl
    · rw [remoteCalls_procInfoEvents]
      rfl
  have hR : appendedRows (cli.ProcInfo procName w).2.trace
      = appendedRows w.trace ++
          (cli.remoteClient.GetProcByName procName w.remote).1.map infoRow := by
    rw [ProcInfo_run]
    simp only
    rw [← List.singleton_append, appendedRows_append, appendedRows_append]
    split
    · rename_i h0
      rw [h0]
      rfl
    · rw [appendedRows_procInfoEvents]
      rfl
  refine ⟨⟨hS, ?_⟩, ⟨hP, ?_⟩, ?_, hR, fun kv => ⟨rfl, rfl⟩, hSr, hPr⟩
  · rw [hS, List.drop_left]
    intro c hc
    rw [List.mem_singleton.mp hc]
    rfl
  · rw [hP, List.drop_left]
    intro c hc
    rw [List.mem_singleton.mp hc]
    rfl
  · intro h0
    rw [hR, h0]
    simp

end Claims

end Apm
